import Mathlib

/-!
Verification development for the auto_bilingual_translation repository.

The Python sources are shallowly embedded as Lean definitions:

* pure string/path helpers model the fragments of `pathlib.Path` and
  f-string formatting that the scripts use;
* `format_timestamp`, `generate_srt`, `translate_to_chinese`,
  `generate_audio` and `process_video_to_dirs` embed the functions of
  `video-translator/scripts/process_video_refactored.py`;
* `_collect_videos`, `ensure_directories`, `_process_single_video`,
  `translate_one_video` and `translate_videos` embed `mcp_server/tools.py`
  and `mcp_server/setup_dirs.py`.

External processes (the Whisper model, the HuggingFace translation
pipeline, edge-tts and ffmpeg) are modelled as oracle parameters: the
embedding takes their answers (segment lists, per-batch translations,
per-clip success flags, subprocess exit codes) as inputs and reproduces
the control flow of the scripts around them.  Machine floats appearing
in the scripts (second offsets) are modelled as exact rationals: every
Python float is a rational number, and `datetime.timedelta`'s conversion
of float seconds to integer microseconds (round to nearest, ties to
even) is modelled explicitly by `roundHalfEven`.

Filesystem effects are modelled where a claim is about them: a record of
existing directories/files threaded through the function
(`ensure_directories`, `translate_one_video`), or the set of temporary
clips present (`generate_audio`).  Paths are modelled as plain
POSIX-style strings.
-/

/-! ## String and path helpers -/

/-- Python `str.strip()` on a string: remove leading and trailing
whitespace characters.  Structurally recursive on the character list
(ASCII whitespace; Python also strips a few rarer unicode space
characters, which never occur in the strings the scripts build). -/
def String.pyStrip (s : String) : String :=
  String.mk (((s.data.dropWhile Char.isWhitespace).reverse.dropWhile Char.isWhitespace).reverse)

/-- Python `str.lower()`: character-wise lowercasing (ASCII; the
extensions compared in the scripts are ASCII). -/
def String.pyLower (s : String) : String :=
  String.mk (s.data.map Char.toLower)

/-- Left-pad a string with the character zero up to width `w`
(the digit-filling part of Python `f-string` formatting `{n:0w}`). -/
def padZeros (w : Nat) (s : String) : String :=
  if s.length < w then String.mk (List.replicate (w - s.length) '0') ++ s else s

/-- Python `f"{n:0w}"` for an integer `n`: zero-padded decimal rendering,
with the sign (if any) in front of the padding zeros. -/
def zfill (w : Nat) (n : Int) : String :=
  if n < 0 then "-" ++ padZeros (w - 1) (Nat.repr n.natAbs)
  else padZeros w (Nat.repr n.toNat)

/-- Index of the last occurrence of a dot in a character list, if any
(Python `str.rfind`, specialised to the dot character). -/
def rfindDot (cs : List Char) : Option Nat :=
  ((cs.enum.filter fun p => p.2 = '.').map fun p => p.1).getLast?

/-- Python `pathlib.PurePath.suffix` applied to a file name (final path
component): the part from the last dot on, provided that dot is neither
the first nor the last character; otherwise the empty string. -/
def path_suffix (name : String) : String :=
  match rfindDot name.data with
  | some i =>
      if 0 < i ∧ i < name.data.length - 1 then String.mk (name.data.drop i) else ""
  | none => ""

/-- Python `pathlib.PurePath.stem` applied to a file name: the name with
`path_suffix` removed. -/
def path_stem (name : String) : String :=
  match rfindDot name.data with
  | some i =>
      if 0 < i ∧ i < name.data.length - 1 then String.mk (name.data.take i) else name
  | none => name

/-- Final component of a POSIX-style path string (`pathlib.Path.name`):
the characters after the last slash. -/
def baseName (path : String) : String :=
  String.mk ((path.data.reverse.takeWhile fun c => c != '/').reverse)

/-! ## Timestamp formatting

Embedding of `format_timestamp` (process_video_refactored.py lines
32-40; identical code in process_video.py lines 11-20).  The Python
function first builds `datetime.timedelta(seconds=seconds)`, which
converts the float seconds into an integral number of microseconds,
rounding to the nearest microsecond with ties to even; it then derives
hours/minutes/seconds from `int(td.total_seconds())` (truncation toward
zero) and the millisecond field from `int(td.microseconds / 1000)`,
where `td.microseconds` is the total in microseconds modulo 10^6 with a
nonnegative representative (Python floor-mod). -/

/-- Round a rational to the nearest integer, ties to the even integer
(the rounding `datetime.timedelta` applies to fractional microseconds). -/
def roundHalfEven (q : ℚ) : ℤ :=
  let f : ℤ := ⌊q⌋
  let r : ℚ := q - f
  if r < 1/2 then f
  else if 1/2 < r then f + 1
  else if f % 2 = 0 then f else f + 1

/-- Total microseconds stored by `datetime.timedelta(seconds=q)`. -/
def timedeltaMicros (q : ℚ) : ℤ :=
  roundHalfEven (q * 1000000)

/-- The arithmetic and formatting of `format_timestamp` after the
`timedelta` conversion, on the total microsecond count `us`:
`total_seconds = int(td.total_seconds())` is truncation toward zero,
the `//` and `%` of the Python source are floor division and floor
modulus, `td.microseconds` is `us` floor-mod 10^6, and each field is
rendered with zero padding as in the f-string of line 40. -/
def usToTimestamp (us : ℤ) : String :=
  let total_seconds : ℤ := us.tdiv 1000000
  let hours : ℤ := total_seconds.fdiv 3600
  let minutes : ℤ := (total_seconds.fmod 3600).fdiv 60
  let secs : ℤ := total_seconds.fmod 60
  let millis : ℤ := (us.fmod 1000000).tdiv 1000
  zfill 2 hours ++ ":" ++ zfill 2 minutes ++ ":" ++ zfill 2 secs ++ "," ++ zfill 3 millis

/-- Embedding of `format_timestamp` (lines 32-40): the composition of the
`timedelta` microsecond conversion with the field arithmetic. -/
def format_timestamp (q : ℚ) : String :=
  usToTimestamp (timedeltaMicros q)

/-- The millisecond value the specification describes: the floor of the
fractional part of the input at the millisecond boundary (truncation of
sub-millisecond precision). -/
def truncMillis (q : ℚ) : ℤ :=
  ⌊(q - ⌊q⌋) * 1000⌋

/-- The millisecond field of a formatted timestamp: its final three
characters, as a character list. -/
def msField (s : String) : List Char :=
  s.data.drop (s.data.length - 3)

/-! ## Segments, translation, bilingual merge and SRT generation -/

/-- A Whisper-style timed segment: the dicts with keys `start`, `end`
and `text` that flow through the pipeline.  Times are modelled as exact
rationals (every Python float is one). -/
structure Segment where
  start : ℚ
  «end» : ℚ
  text : String
deriving DecidableEq

/-- Line 64 of the refactored script (line 45 of process_video.py): an
empty or whitespace-only entry is replaced by the single-character
placeholder before submission to the translation pipeline
(`text if text.strip() else "."`). -/
def sanitize (t : String) : String :=
  if t.pyStrip = "" then "." else t

/-- The successive slices `texts[i : i + batch_size]` taken by the
chunking loop of `translate_to_chinese` (line 62), collected as a list
of batches.  `fuel` bounds the recursion; the callers pass the length of
the list, which suffices whenever `bs > 0`. -/
def batchesGo (bs : Nat) : Nat → List String → List (List String)
  | _, [] => []
  | 0, _ => []
  | fuel + 1, ts => ts.take bs :: batchesGo bs fuel (ts.drop bs)

/-- The chunks submitted by `translate_to_chinese` for input `ts`. -/
def batches (bs : Nat) (ts : List String) : List (List String) :=
  batchesGo bs ts.length ts

/-- Worker for `translate_to_chinese`, mirroring the loop of lines
61-66: each batch is sanitized entry-wise, submitted to the translation
pipeline (the oracle `model`), and the stripped translations are
appended in order. -/
def translateGo (model : List String → List String) (bs : Nat) :
    Nat → List String → List String
  | _, [] => []
  | 0, _ => []
  | fuel + 1, ts =>
      ((model ((ts.take bs).map sanitize)).map String.pyStrip) ++
        translateGo model bs fuel (ts.drop bs)

/-- Embedding of `translate_to_chinese` (refactored script lines 54-67;
identical logic in process_video.py lines 35-48).  The lazily loaded
HuggingFace pipeline is the oracle `model`, mapping a submitted batch to
the list of its translations (`item["translation_text"]` values). -/
def translate_to_chinese (model : List String → List String)
    (texts : List String) (batch_size : Nat := 8) : List String :=
  translateGo model batch_size texts.length texts

/-- Embedding of the bilingual merge loop (refactored script lines
182-187; process_video.py lines 123-129): pairwise zip of the English
and Chinese segment lists, keeping the English times and stacking the
stripped texts with a newline between. -/
def merge_bilingual (en zh : List Segment) : List Segment :=
  (en.zip zh).map fun p =>
    ⟨p.1.start, p.1.«end», p.1.text.pyStrip ++ "\n" ++ p.2.text.pyStrip⟩

/-- One SRT block as written by `generate_srt` for the segment `s` at
one-based index `n`: `f"{i+1}\n{start} --> {end}\n{text}\n\n"`. -/
def srtBlock (n : Nat) (s : Segment) : String :=
  Nat.repr n ++ "\n" ++ format_timestamp s.start ++ " --> " ++
    format_timestamp s.«end» ++ "\n" ++ s.text.pyStrip ++ "\n\n"

/-- Embedding of `generate_srt` (refactored script lines 43-51;
process_video.py lines 22-30): the file contents produced by the
sequence of `f.write` calls, one per enumerated segment, starting from
an empty file (mode "w" truncates any existing file). -/
def generate_srt (segments : List Segment) : String :=
  segments.enum.foldl
    (fun acc p =>
      acc ++ (Nat.repr (p.1 + 1) ++ "\n" ++ format_timestamp p.2.start ++ " --> " ++
        format_timestamp p.2.«end» ++ "\n" ++ p.2.text.pyStrip ++ "\n\n"))
    ""

/-! ## Speech synthesis and concatenation (generate_audio)

Embedding of `generate_audio` (refactored script lines 70-109).  The
filesystem state tracked is the set of intermediate artifacts owned by
the function: the per-segment clips `temp_{i}.mp3` and the concat
manifest `ffmpeg_list.txt`.  edge-tts clip generation and the ffmpeg
concat subprocess are oracles (`tts` success flags and the concat exit
code). -/

/-- Intermediate artifacts of one `generate_audio` run that are present
on disk: indices of the `temp_{i}.mp3` clips, and whether the
`ffmpeg_list.txt` manifest exists. -/
structure AudioFS where
  clips : List Nat
  manifest : Bool
deriving DecidableEq

/-- Exceptions that can escape `generate_audio`: a failure of
`edge_tts.Communicate(...).save` for clip `i`, or
`subprocess.CalledProcessError` from the `check=True` concat run. -/
inductive AudioErr where
  | ttsFailed (i : Nat)
  | concatFailed (code : Int)
deriving DecidableEq

/-- Clip-generation loop of lines 77-85: segments with blank text are
skipped; for the others a clip is saved (appended to the state) or the
tts failure propagates with the artifacts produced so far. -/
def audioClipsGo (tts : Nat → Bool) :
    List (Nat × String) → List Nat → Except (AudioErr × AudioFS) (List Nat)
  | [], acc => .ok acc
  | (i, text) :: rest, acc =>
      if text.pyStrip = "" then audioClipsGo tts rest acc
      else if tts i then audioClipsGo tts rest (acc ++ [i])
      else .error (.ttsFailed i, ⟨acc, false⟩)

/-- Embedding of `generate_audio` (lines 70-109).  After the clip loop,
the manifest is written (line 88-93), ffmpeg concat runs with
`check=True` (lines 95-103) — a non-zero exit raises with every clip and
the manifest still on disk — and only after a zero exit are the clips
and the manifest unlinked (lines 106-108).  The returned state is the
set of artifacts still present when control leaves the function. -/
def generate_audio (segments : List String) (tts : Nat → Bool)
    (concatExit : Int) : Except (AudioErr × AudioFS) AudioFS :=
  match audioClipsGo tts segments.enum [] with
  | .error e => .error e
  | .ok clips =>
      if concatExit = 0 then .ok ⟨[], false⟩
      else .error (.concatFailed concatExit, ⟨clips, true⟩)

/-- The artifact state left behind by a `generate_audio` run, whether it
returned normally or raised. -/
def audioFinalFS : Except (AudioErr × AudioFS) AudioFS → AudioFS
  | .ok s => s
  | .error (_, s) => s

/-! ## Pipeline orchestrator (process_video_to_dirs)

Embedding of `process_video_to_dirs` (refactored script lines 123-238).
The external processes are an oracle record: the Whisper transcription
result, the translation pipeline, the per-clip tts success flags and the
ffmpeg exit codes.  Output paths are modelled as POSIX-style strings
built from the resolved output directories, as on lines 154-157. -/

/-- Oracle answers of the external processes consulted by one pipeline
run. -/
structure PipelineWorld where
  transcription : List Segment
  model : List String → List String
  tts : Nat → Bool
  concatExit : Int
  muxExit : Int
  muxStderr : String

/-- Exceptions that can escape `process_video_to_dirs`: a clip failure
inside `generate_audio`, or `subprocess.CalledProcessError` from a
`check=True` ffmpeg run (concat or mux). -/
inductive ProcErr where
  | ttsFailed (i : Nat)
  | calledProcess (code : Int) (stderr : String)
deriving DecidableEq

/-- The dict returned by `process_video_to_dirs` (lines 198-201, 235),
together with the text written to the SRT file. -/
structure ProcResult where
  video_output : String
  srt_output : String
  dub_audio : Option String
  srt_content : String
deriving DecidableEq

/-- Embedding of `process_video_to_dirs` (lines 123-238): path
derivation from the input stem (lines 145-157), transcription (oracle),
translation (lines 168-176), optional bilingual merge (lines 179-189),
SRT generation (line 192), and the mode branch (lines 203-235), where a
non-zero ffmpeg exit raises `CalledProcessError` and dub mode runs
`generate_audio` first.  A mode other than "subs" and "dub" skips both
branches and returns the dict without any mux step, as the source does. -/
def process_video_to_dirs (video_path video_output_dir srt_output_dir : String)
    (mode : String) (bilingual : Bool) (w : PipelineWorld) :
    Except ProcErr ProcResult :=
  let base_name := path_stem (baseName video_path)
  let output_video := video_output_dir ++ "/" ++ base_name ++ "_bilingual.mp4"
  let srt_path := srt_output_dir ++ "/" ++ base_name ++ "_bilingual.srt"
  let dub_audio_path := video_output_dir ++ "/" ++ base_name ++ "_dub.mp3"
  let en_segments := w.transcription
  let zh_texts := translate_to_chinese w.model (en_segments.map fun s => s.text)
  let zh_segments := (en_segments.zip zh_texts).map fun p =>
    ⟨p.1.start, p.1.«end», p.2⟩
  let segments_for_srt :=
    if bilingual then merge_bilingual en_segments zh_segments else zh_segments
  let srt_content := generate_srt segments_for_srt
  if mode = "subs" then
    if w.muxExit = 0 then
      .ok ⟨output_video, srt_path, none, srt_content⟩
    else .error (.calledProcess w.muxExit w.muxStderr)
  else if mode = "dub" then
    match generate_audio (zh_segments.map fun s => s.text) w.tts w.concatExit with
    | .error (.ttsFailed i, _) => .error (.ttsFailed i)
    | .error (.concatFailed c, _) => .error (.calledProcess c "")
    | .ok _ =>
        if w.muxExit = 0 then
          .ok ⟨output_video, srt_path, some dub_audio_path, srt_content⟩
        else .error (.calledProcess w.muxExit w.muxStderr)
  else .ok ⟨output_video, srt_path, none, srt_content⟩

/-! ## MCP server tools (mcp_server/tools.py, mcp_server/setup_dirs.py) -/

/-- The extension whitelist of tools.py line 25 (a Python set, modelled
as the list in source order). -/
def VIDEO_EXTENSIONS : List String :=
  [".mp4", ".mov", ".mkv", ".avi", ".m4v", ".webm"]

/-- One entry of a directory listing (`Path.iterdir`): its file name and
whether it is a regular file. -/
structure DirEntry where
  name : String
  isFile : Bool
deriving DecidableEq

/-- The filter applied by `_collect_videos` to one directory entry
(tools.py lines 34-41): regular file, lowercased suffix in the
whitelist, and stem not already carrying the processed marker. -/
def isCollectible (c : DirEntry) : Bool :=
  c.isFile && VIDEO_EXTENSIONS.contains (path_suffix c.name).pyLower &&
    !((path_stem c.name).endsWith "_bilingual")

/-- Embedding of `_collect_videos` (tools.py lines 28-42): `none` models
a folder that does not exist (early return of the empty list); otherwise
the entries of `iterdir` (in arbitrary order) are filtered and sorted
ascending by name, as `sorted(items, key=lambda p: p.name)` does. -/
def _collect_videos : Option (List DirEntry) → List DirEntry
  | none => []
  | some entries =>
      (entries.filter isCollectible).mergeSort fun a b => decide (a.name ≤ b.name)

/-- The three workspace directories created by setup_dirs.py
`ensure_directories` (lines 10-23), relative to the project root. -/
def workspaceDirs : List String :=
  ["video_input", "video_output", "srt_output"]

/-- A root-relative snapshot of the filesystem as far as the tool layer
observes it: existing directories and existing files. -/
structure WS where
  dirs : List String
  files : List String
deriving DecidableEq

/-- Embedding of `ensure_directories` (setup_dirs.py lines 10-23):
`mkdir(parents=True, exist_ok=True)` for each workspace directory, i.e.
each missing one is appended to the directory set and existing ones are
left alone. -/
def ensure_directories (ws : WS) : WS :=
  { ws with
    dirs := workspaceDirs.foldl (fun ds d => if ds.contains d then ds else ds ++ [d]) ws.dirs }

/-- The dict returned by `_process_single_video` (tools.py lines 45-86):
success flag, output paths on success, error message on failure. -/
structure SingleResult where
  success : Bool
  video_output : Option String
  srt_output : Option String
  dub_audio : Option String
  error : Option String
deriving DecidableEq

/-- Embedding of `_process_single_video` (tools.py lines 45-86): the
pipeline outcome is converted to the result dict; every exception is
caught, a `CalledProcessError` is rendered as the ffmpeg message of
lines 77-82 (the concat call sent stderr to DEVNULL, so its
`e.stderr if e.stderr else ""` is the empty string; the mux calls
captured it), and any other exception as its `str(e)`.  The string of
an edge-tts exception is opaque to the source, so it is modelled by a
fixed rendering of the failing index. -/
def errMessage : ProcErr → String
  | .calledProcess code stderr =>
      "ffmpeg failed (exit " ++ toString code ++ "): " ++ stderr.pyStrip
  | .ttsFailed i => "tts failed for segment " ++ Nat.repr i

/-- The try/except of `_process_single_video`: a pipeline outcome is
always converted to the result dict, success or not — no exception
escapes. -/
def _process_single_video (outcome : Except ProcErr ProcResult) : SingleResult :=
  match outcome with
  | .ok r => ⟨true, some r.video_output, some r.srt_output, r.dub_audio, none⟩
  | .error e => ⟨false, none, none, none, some (errMessage e)⟩

/-- One collected video of a batch run, with the oracle outcome its
pipeline would produce. -/
structure VideoRun where
  name : String
  outcome : Except ProcErr ProcResult

/-- One entry of the `processed` list of `translate_videos`
(tools.py lines 132-136). -/
structure ProcessedEntry where
  input : String
  video_output : String
  srt_output : String
deriving DecidableEq

/-- One entry of the `failed` list of `translate_videos`
(tools.py lines 138-141). -/
structure FailedEntry where
  filename : String
  error : String
deriving DecidableEq

/-- The dict returned by `translate_videos` (tools.py lines 110-147). -/
structure BatchResult where
  processed : List ProcessedEntry
  failed : List FailedEntry
  message : String
deriving DecidableEq

/-- The loop body of lines 120-141: one video is appended to exactly one
of the two accumulating lists according to its `_process_single_video`
result. -/
def batchStep (acc : List ProcessedEntry × List FailedEntry) (v : VideoRun) :
    List ProcessedEntry × List FailedEntry :=
  let result := _process_single_video v.outcome
  if result.success then
    (acc.1 ++ [(⟨v.name, result.video_output.getD "", result.srt_output.getD ""⟩ : ProcessedEntry)],
      acc.2)
  else
    (acc.1, acc.2 ++ [(⟨v.name, result.error.getD ""⟩ : FailedEntry)])

/-- Embedding of `translate_videos` (tools.py lines 89-147),
parametrised over the collected video list together with each video's
pipeline outcome.  An empty collection returns the early message of
lines 110-115; otherwise the fold of `batchStep` over the collection
builds the two result lists. -/
def translate_videos (videos : List VideoRun) : BatchResult :=
  if videos.isEmpty then
    ⟨[], [],
      "No video files found in video_input folder. Please add .mp4/.mkv/.mov/.avi/.m4v/.webm files."⟩
  else
    let acc := videos.foldl batchStep (([], []) : List ProcessedEntry × List FailedEntry)
    ⟨acc.1, acc.2,
      "Processed " ++ Nat.repr acc.1.length ++ " videos, " ++ Nat.repr acc.2.length ++ " failed."⟩

/-- Result of one `translate_one_video` call: the returned dict, the
filesystem state afterwards, and whether `_process_single_video` (and
hence any model or external tool) was reached. -/
structure ToolOutcome where
  result : SingleResult
  ws : WS
  pipelineInvoked : Bool
deriving DecidableEq

/-- Embedding of `translate_one_video` (tools.py lines 150-195).  It
first runs `ensure_directories` (line 166), then checks existence of
`video_input/<filename>` (lines 173-177) and the extension whitelist
(lines 179-183); only past both checks is `_process_single_video`
invoked.  The `Supported:` enumeration joins a Python set, whose
iteration order is unspecified; it is modelled in source order. -/
def translate_one_video (ws : WS) (filename : String)
    (outcome : Except ProcErr ProcResult) : ToolOutcome :=
  let ws1 := ensure_directories ws
  let video_path := "video_input/" ++ filename
  if !(ws1.files.contains video_path || ws1.dirs.contains video_path) then
    ⟨⟨false, none, none, none,
        some ("File not found: " ++ filename ++
          ". Please ensure the file exists in video_input folder.")⟩,
      ws1, false⟩
  else if !(VIDEO_EXTENSIONS.contains (path_suffix (baseName filename)).pyLower) then
    ⟨⟨false, none, none, none,
        some ("Unsupported file type: " ++ path_suffix (baseName filename) ++
          ". Supported: " ++ String.intercalate ", " VIDEO_EXTENSIONS)⟩,
      ws1, false⟩
  else
    ⟨_process_single_video outcome, ws1, true⟩

/-! ## Supporting lemmas -/

theorem roundHalfEven_nonneg {q : ℚ} (h : 0 ≤ q) : 0 ≤ roundHalfEven q := by
  have hf : (0:ℤ) ≤ ⌊q⌋ := Int.floor_nonneg.mpr h
  simp only [roundHalfEven]
  split_ifs <;> omega

theorem timedeltaMicros_nonneg {q : ℚ} (h : 0 ≤ q) : 0 ≤ timedeltaMicros q :=
  roundHalfEven_nonneg (by positivity)

set_option maxRecDepth 8000 in
theorem natRepr_length_le_three : ∀ n < 1000, (Nat.repr n).length ≤ 3 := by decide

theorem length_zfill3 {m : ℤ} (h0 : 0 ≤ m) (h1 : m < 1000) :
    (zfill 3 m).data.length = 3 := by
  have hle : (Nat.repr m.toNat).length ≤ 3 := natRepr_length_le_three m.toNat (by omega)
  have hdata : (Nat.repr m.toNat).length = (Nat.repr m.toNat).data.length := rfl
  simp only [zfill, if_neg (show ¬ m < 0 by omega), padZeros]
  split_ifs with hcase
  · rw [String.data_append, List.length_append]
    have : (String.mk (List.replicate (3 - (Nat.repr m.toNat).length) '0')).data.length
        = 3 - (Nat.repr m.toNat).length := by
      simp
    omega
  · omega

theorem msField_append (P Z : String) (h : Z.data.length = 3) :
    msField (P ++ Z) = Z.data := by
  unfold msField
  rw [String.data_append, List.length_append, h, Nat.add_sub_cancel, List.drop_left]

theorem truncMillis_intCast_div (us : ℤ) :
    truncMillis ((us : ℚ) / 1000000) = (us.fmod 1000000).tdiv 1000 := by
  have hr0 : 0 ≤ us % 1000000 := Int.emod_nonneg us (by norm_num)
  have hfloor : ⌊(us : ℚ) / 1000000⌋ = us / 1000000 := by
    have h := Rat.floor_intCast_div_natCast us 1000000
    push_cast at h
    exact h
  have hdecomp : (us : ℚ) / 1000000 - ((us / 1000000 : ℤ) : ℚ)
      = ((us % 1000000 : ℤ) : ℚ) / 1000000 := by
    have h : 1000000 * (us / 1000000) + us % 1000000 = us := Int.ediv_add_emod us 1000000
    have hq : ((us : ℚ)) = 1000000 * ((us / 1000000 : ℤ) : ℚ) + ((us % 1000000 : ℤ) : ℚ) := by
      exact_mod_cast (congrArg (fun z : ℤ => (z : ℚ)) h).symm
    rw [hq]; ring
  have hmul : ((us % 1000000 : ℤ) : ℚ) / 1000000 * 1000 = ((us % 1000000 : ℤ) : ℚ) / 1000 := by
    field_simp
    ring
  have hf2 : ⌊((us % 1000000 : ℤ) : ℚ) / 1000⌋ = (us % 1000000) / 1000 := by
    have h := Rat.floor_intCast_div_natCast (us % 1000000) 1000
    push_cast at h
    exact h
  unfold truncMillis
  rw [hfloor, hdecomp, hmul, hf2, Int.fmod_eq_emod us (by norm_num),
    Int.tdiv_eq_ediv hr0 (by norm_num)]

/-! ## C1: format_timestamp and millisecond truncation -/

/-- C1 (counterexample): the claim that for every non-negative float the
millisecond field of `format_timestamp` is the floor of the fractional
part at the millisecond boundary fails.  The input is the exact value of
the IEEE-754 double `0.0009997`: `timedelta` rounds its 999.7
microseconds up to 1000, so the rendered millisecond field is `001`
while flooring the fractional part at the millisecond boundary gives
`000`. -/
theorem format_timestamp_truncation_counterexample :
    format_timestamp ((1152575628155465 : ℚ) / 1152921504606846976) = "00:00:00,001" ∧
    truncMillis ((1152575628155465 : ℚ) / 1152921504606846976) = 0 ∧
    msField (format_timestamp ((1152575628155465 : ℚ) / 1152921504606846976)) ≠
      (zfill 3 (truncMillis ((1152575628155465 : ℚ) / 1152921504606846976))).data := by
  have hus : timedeltaMicros ((1152575628155465 : ℚ) / 1152921504606846976) = 1000 := by
    have hfl : ⌊(1152575628155465 : ℚ) / 1152921504606846976 * 1000000⌋ = 999 := by
      rw [Int.floor_eq_iff]
      constructor <;> norm_num
    simp only [timedeltaMicros, roundHalfEven, hfl]
    norm_num
  have hout : format_timestamp ((1152575628155465 : ℚ) / 1152921504606846976)
      = "00:00:00,001" := by
    rw [format_timestamp, hus]
    decide
  have htr : truncMillis ((1152575628155465 : ℚ) / 1152921504606846976) = 0 := by
    have h0 : ⌊(1152575628155465 : ℚ) / 1152921504606846976⌋ = 0 := by
      rw [Int.floor_eq_iff]
      constructor <;> norm_num
    simp only [truncMillis, h0]
    rw [Int.floor_eq_iff]
    constructor <;> norm_num
  refine ⟨hout, htr, ?_⟩
  rw [hout, htr]
  decide

/-- C1 (amended): for every non-negative input, the millisecond field of
the `HH:MM:SS,mmm` string produced by `format_timestamp` is the floor at
the millisecond boundary of the input after `timedelta`'s rounding to
the nearest microsecond (ties to even) — truncation happens at the
millisecond boundary of the microsecond-rounded value, not of the raw
input.  The known values check out on the exact doubles: `1.9999`
renders as `00:00:01,999` and `59.999` as `00:00:59,999`. -/
theorem format_timestamp_millis_floor_of_rounded (q : ℚ) (hq : 0 ≤ q) :
    msField (format_timestamp q)
      = (zfill 3 (truncMillis ((timedeltaMicros q : ℚ) / 1000000))).data ∧
    format_timestamp ((9006748894778255 : ℚ) / 4503599627370496) = "00:00:01,999" ∧
    format_timestamp ((8444108563831325 : ℚ) / 140737488355328) = "00:00:59,999" := by
  refine ⟨?_, ?_, ?_⟩
  · have hus : 0 ≤ timedeltaMicros q := timedeltaMicros_nonneg hq
    rw [truncMillis_intCast_div]
    have hfm : (timedeltaMicros q).fmod 1000000 = timedeltaMicros q % 1000000 :=
      Int.fmod_eq_emod _ (by norm_num)
    have hr0 : 0 ≤ timedeltaMicros q % 1000000 := Int.emod_nonneg _ (by norm_num)
    have hr1 : timedeltaMicros q % 1000000 < 1000000 := Int.emod_lt_of_pos _ (by norm_num)
    have htd : (timedeltaMicros q % 1000000).tdiv 1000 = timedeltaMicros q % 1000000 / 1000 :=
      Int.tdiv_eq_ediv hr0 (by norm_num)
    have h0 : 0 ≤ ((timedeltaMicros q).fmod 1000000).tdiv 1000 := by
      rw [hfm, htd]; omega
    have h1 : ((timedeltaMicros q).fmod 1000000).tdiv 1000 < 1000 := by
      rw [hfm, htd]; omega
    simp only [format_timestamp, usToTimestamp]
    exact msField_append _ _ (length_zfill3 h0 h1)
  · have hfl : ⌊(9006748894778255 : ℚ) / 4503599627370496 * 1000000⌋ = 1999900 := by
      rw [Int.floor_eq_iff]
      constructor <;> norm_num
    have hus : timedeltaMicros ((9006748894778255 : ℚ) / 4503599627370496) = 1999900 := by
      simp only [timedeltaMicros, roundHalfEven, hfl]
      norm_num
    rw [format_timestamp, hus]
    decide
  · have hfl : ⌊(8444108563831325 : ℚ) / 140737488355328 * 1000000⌋ = 59999000 := by
      rw [Int.floor_eq_iff]
      constructor <;> norm_num
    have hus : timedeltaMicros ((8444108563831325 : ℚ) / 140737488355328) = 59999000 := by
      simp only [timedeltaMicros, roundHalfEven, hfl]
      norm_num
    rw [format_timestamp, hus]
    decide

/-- Closed instance of the amended C1 theorem at the input `3661.25`
(exactly representable), discharging its hypothesis. -/
theorem format_timestamp_millis_floor_of_rounded_witness :
    msField (format_timestamp ((14645 : ℚ) / 4))
      = (zfill 3 (truncMillis ((timedeltaMicros ((14645 : ℚ) / 4) : ℚ) / 1000000))).data ∧
    format_timestamp ((9006748894778255 : ℚ) / 4503599627370496) = "00:00:01,999" ∧
    format_timestamp ((8444108563831325 : ℚ) / 140737488355328) = "00:00:59,999" :=
  format_timestamp_millis_floor_of_rounded ((14645 : ℚ) / 4) (by norm_num)

/-! ## Supporting lemmas on batching and translation -/

theorem batchesGo_flatten {bs : Nat} (hbs : 0 < bs) :
    ∀ (fuel : Nat) (ts : List String), ts.length ≤ fuel →
      (batchesGo bs fuel ts).flatten = ts := by
  intro fuel
  induction fuel with
  | zero =>
      intro ts hts
      match ts, hts with
      | [], _ => rfl
  | succ fuel ih =>
      intro ts hts
      match ts with
      | [] => rfl
      | t :: rest =>
          simp only [batchesGo, List.flatten_cons]
          rw [ih ((t :: rest).drop bs) (by simp [List.length_drop] at *; omega)]
          exact List.take_append_drop bs (t :: rest)

theorem batchesGo_mem_length {bs : Nat} :
    ∀ (fuel : Nat) (ts : List String) (b : List String),
      b ∈ batchesGo bs fuel ts → b.length ≤ bs := by
  intro fuel
  induction fuel with
  | zero =>
      intro ts b hb
      match ts, hb with
      | [], hb => simp [batchesGo] at hb
  | succ fuel ih =>
      intro ts b hb
      match ts with
      | [] => simp [batchesGo] at hb
      | t :: rest =>
          simp only [batchesGo, List.mem_cons] at hb
          rcases hb with h | h
          · subst h
            simp [List.length_take]
          · exact ih _ _ h

theorem translateGo_length {model : List String → List String}
    (hmodel : ∀ l, (model l).length = l.length) {bs : Nat} (hbs : 0 < bs) :
    ∀ (fuel : Nat) (ts : List String), ts.length ≤ fuel →
      (translateGo model bs fuel ts).length = ts.length := by
  intro fuel
  induction fuel with
  | zero =>
      intro ts hts
      match ts, hts with
      | [], _ => rfl
  | succ fuel ih =>
      intro ts hts
      match ts with
      | [] => rfl
      | t :: rest =>
          simp only [translateGo, List.length_append, List.length_map, hmodel]
          rw [ih ((t :: rest).drop bs) (by simp [List.length_drop] at *; omega)]
          simp [List.length_take, List.length_drop]
          omega

theorem translateGo_pointwise (f : String → String) {bs : Nat} (hbs : 0 < bs) :
    ∀ (fuel : Nat) (ts : List String), ts.length ≤ fuel →
      translateGo (List.map f) bs fuel ts = ts.map fun t => (f (sanitize t)).pyStrip := by
  intro fuel
  induction fuel with
  | zero =>
      intro ts hts
      match ts, hts with
      | [], _ => rfl
  | succ fuel ih =>
      intro ts hts
      match ts with
      | [] => rfl
      | t :: rest =>
          simp only [translateGo]
          rw [ih ((t :: rest).drop bs) (by simp [List.length_drop] at *; omega)]
          rw [List.map_map, List.map_map]
          simp only [Function.comp_def]
          rw [← List.map_append, List.take_append_drop]

theorem translateGo_eq_flatten (model : List String → List String) (bs : Nat) :
    ∀ (fuel : Nat) (ts : List String),
      translateGo model bs fuel ts
        = ((batchesGo bs fuel ts).map fun b => (model (b.map sanitize)).map String.pyStrip).flatten := by
  intro fuel
  induction fuel with
  | zero =>
      intro ts
      match ts with
      | [] => rfl
      | _ :: _ => rfl
  | succ fuel ih =>
      intro ts
      match ts with
      | [] => rfl
      | t :: rest =>
          simp only [translateGo, batchesGo, List.map_cons, List.flatten_cons, ih]

/-! ## C5: translate_to_chinese length, order, chunking, placeholder -/

/-- C5: for every input sequence and positive batch size, and a
translation pipeline that answers one translation per submitted entry,
`translate_to_chinese` returns as many entries as it received; the input
is chunked into groups of at most `batch_size` whose concatenation is
the input itself; and for a pipeline acting entry-wise, the output at
each position is the stripped translation of the sanitized entry at that
position — in particular a blank entry is submitted as the placeholder
and its translation still occupies its position. -/
theorem translate_batch_length_order_chunking
    (model : List String → List String)
    (hmodel : ∀ l, (model l).length = l.length)
    (f : String → String) (bs : Nat) (hbs : 0 < bs) (texts : List String) :
    (translate_to_chinese model texts bs).length = texts.length ∧
    (∀ b ∈ batches bs texts, b.length ≤ bs) ∧
    (batches bs texts).flatten = texts ∧
    translate_to_chinese (List.map f) texts bs
      = (texts.map fun t => (f (sanitize t)).pyStrip) := by
  refine ⟨?_, ?_, ?_, ?_⟩
  · exact translateGo_length hmodel hbs texts.length texts le_rfl
  · intro b hb
    exact batchesGo_mem_length texts.length texts b hb
  · exact batchesGo_flatten hbs texts.length texts le_rfl
  · exact translateGo_pointwise f hbs texts.length texts le_rfl

/-- Closed instance of the C5 theorem: identity pipeline, batch size 2,
a three-entry input containing a whitespace-only entry. -/
theorem translate_batch_length_order_chunking_witness :
    (translate_to_chinese id ["hello", "  ", "world"] 2).length
        = (["hello", "  ", "world"] : List String).length ∧
    (∀ b ∈ batches 2 ["hello", "  ", "world"], b.length ≤ 2) ∧
    (batches 2 ["hello", "  ", "world"]).flatten = ["hello", "  ", "world"] ∧
    translate_to_chinese (List.map id) ["hello", "  ", "world"] 2
      = (["hello", "  ", "world"].map fun t => (id (sanitize t)).pyStrip) :=
  translate_batch_length_order_chunking id (fun _ => rfl) id 2 (by decide)
    ["hello", "  ", "world"]

/-! ## C3: no validation of the translation response count -/

/-- C3 (counterexample): the claim that a count-mismatched batch
response makes `translate_to_chinese` fail with a `TranslationError`
fails — the source performs no such check (no `TranslationError` exists
in the repository).  A pipeline answering zero translations for a
one-entry batch makes the function return normally with an empty list,
silently shorter than its input. -/
theorem translate_count_mismatch_counterexample :
    translate_to_chinese (fun _ => []) ["hello"] 8 = [] ∧
    (translate_to_chinese (fun _ => []) ["hello"] 8).length ≠
      (["hello"] : List String).length :=
  ⟨rfl, by decide⟩

/-- C3 (amended): `translate_to_chinese` performs no validation on the
pipeline response: its output is exactly the concatenation, chunk by
chunk, of whatever the pipeline returned (stripped), so its length is
the sum of the response lengths — a count mismatch propagates silently
into an output of different length, and no error is ever raised (the
function is total). -/
theorem translate_no_response_validation
    (model : List String → List String) (bs : Nat) (texts : List String) :
    translate_to_chinese model texts bs
      = ((batches bs texts).map fun b => (model (b.map sanitize)).map String.pyStrip).flatten ∧
    (translate_to_chinese model texts bs).length
      = ((batches bs texts).map fun b => (model (b.map sanitize)).length).sum := by
  constructor
  · exact translateGo_eq_flatten model bs texts.length texts
  · rw [translate_to_chinese, translateGo_eq_flatten model bs texts.length texts,
      List.length_flatten, List.map_map]
    simp only [Function.comp_def, batches, List.length_map]

/-! ## C6: bilingual merge is a pure pairwise zip -/

/-- C6: for English and Chinese segment lists of equal length, the merge
produces exactly that many segments, and the segment at each position
carries the English segment's start and end and the stripped English
text, a newline, then the stripped Chinese text. -/
theorem merge_bilingual_pairwise_zip (en zh : List Segment) (h : en.length = zh.length) :
    (merge_bilingual en zh).length = en.length ∧
    ∀ (i : Nat) (e z : Segment), en[i]? = some e → zh[i]? = some z →
      (merge_bilingual en zh)[i]? =
        some ⟨e.start, e.«end», e.text.pyStrip ++ "\n" ++ z.text.pyStrip⟩ := by
  constructor
  · simp [merge_bilingual, List.length_zip, h]
  · intro i e z he hz
    have hzip : (en.zip zh)[i]? = some (e, z) :=
      (List.getElem?_zip_eq_some).mpr ⟨he, hz⟩
    simp [merge_bilingual, List.getElem?_map, hzip]

/-- Closed instance of the C6 theorem on a concrete pair of segments. -/
theorem merge_bilingual_pairwise_zip_witness :
    (merge_bilingual [⟨0, 1, " Hi "⟩] [⟨0, 1, " 你好 "⟩]).length
        = ([(⟨0, 1, " Hi "⟩ : Segment)]).length ∧
    ∀ (i : Nat) (e z : Segment),
      ([(⟨0, 1, " Hi "⟩ : Segment)])[i]? = some e →
      ([(⟨0, 1, " 你好 "⟩ : Segment)])[i]? = some z →
      (merge_bilingual [⟨0, 1, " Hi "⟩] [⟨0, 1, " 你好 "⟩])[i]? =
        some ⟨e.start, e.«end», e.text.pyStrip ++ "\n" ++ z.text.pyStrip⟩ :=
  merge_bilingual_pairwise_zip [⟨0, 1, " Hi "⟩] [⟨0, 1, " 你好 "⟩] rfl

/-! ## C7: generate_srt block structure -/

theorem foldl_string_append (l : List String) :
    ∀ acc : String, l.foldl (fun r s => r ++ s) acc = acc ++ String.join l := by
  induction l with
  | nil => intro acc; simp [String.join]
  | cons a l ih =>
      intro acc
      have hjoin : String.join (a :: l) = a ++ String.join l := by
        show l.foldl (fun r s => r ++ s) ("" ++ a) = _
        rw [String.empty_append, ih a]
      show l.foldl (fun r s => r ++ s) (acc ++ a) = _
      rw [ih (acc ++ a), hjoin, String.append_assoc]

theorem foldl_block_join {α : Type} (blk : α → String) (l : List α) :
    ∀ acc : String, l.foldl (fun a x => a ++ blk x) acc = acc ++ String.join (l.map blk) := by
  induction l with
  | nil => intro acc; simp [String.join]
  | cons x l ih =>
      intro acc
      have hjoin : String.join ((x :: l).map blk) = blk x ++ String.join (l.map blk) := by
        rw [List.map_cons]
        show (l.map blk).foldl (fun r s => r ++ s) ("" ++ blk x) = _
        rw [String.empty_append, foldl_string_append]
      rw [List.foldl_cons, ih, hjoin, String.append_assoc]

/-- C7: `generate_srt` writes exactly one block per segment, numbered
from one in input order (no re-sorting or merging, whatever the start
values are), each block being index, timestamp line, stripped text and a
blank line; the empty segment list yields an empty file. -/
theorem generate_srt_blocks (segments : List Segment) :
    generate_srt segments
      = String.join (segments.mapIdx fun i s => srtBlock (i + 1) s) ∧
    (segments.mapIdx fun i s => srtBlock (i + 1) s).length = segments.length ∧
    generate_srt [] = "" := by
  refine ⟨?_, by simp, rfl⟩
  have h := foldl_block_join (fun p : Nat × Segment => srtBlock (p.1 + 1) p.2) segments.enum ""
  rw [String.empty_append] at h
  rw [List.mapIdx_eq_enum_map]
  have huncurry : (Function.uncurry fun i (s : Segment) => srtBlock (i + 1) s)
      = fun p : Nat × Segment => srtBlock (p.1 + 1) p.2 := rfl
  rw [huncurry]
  exact h

/-! ## C2: generate_audio intermediate-file cleanup -/

/-- C2 (counterexample): the claim that all intermediate clips and the
manifest are deleted before the function returns or an error propagates,
even when concatenation reports a non-zero exit status, fails.  With one
non-blank segment and an ffmpeg concat exit status of 1, `check=True`
raises before any `unlink` runs (lines 95-108 have no try/finally), so
clip 0 and the manifest are still on disk when the error propagates. -/
theorem generate_audio_cleanup_counterexample :
    generate_audio ["hi"] (fun _ => true) 1 =
      .error (.concatFailed 1, ⟨[0], true⟩) ∧
    (audioFinalFS (generate_audio ["hi"] (fun _ => true) 1)).clips ≠ [] ∧
    (audioFinalFS (generate_audio ["hi"] (fun _ => true) 1)).manifest ≠ false := by
  refine ⟨rfl, by decide, by decide⟩

theorem audioClipsGo_all_ok {tts : Nat → Bool} :
    ∀ (l : List (Nat × String)) (acc : List Nat),
      (∀ p ∈ l, p.2.pyStrip ≠ "" → tts p.1 = true) →
      audioClipsGo tts l acc =
        .ok (acc ++ (l.filter fun p => !(p.2.pyStrip == "")).map fun p => p.1) := by
  intro l
  induction l with
  | nil => intro acc _; simp [audioClipsGo]
  | cons p l ih =>
      intro acc hok
      by_cases hblank : p.2.pyStrip = ""
      · have : audioClipsGo tts (p :: l) acc = audioClipsGo tts l acc := by
          simp [audioClipsGo, hblank]
        rw [this, ih acc fun q hq => hok q (List.mem_cons_of_mem p hq)]
        simp [List.filter_cons, hblank]
      · have htts : tts p.1 = true := hok p (List.mem_cons_self p l) hblank
        have : audioClipsGo tts (p :: l) acc = audioClipsGo tts l (acc ++ [p.1]) := by
          simp [audioClipsGo, hblank, htts]
        rw [this, ih (acc ++ [p.1]) fun q hq => hok q (List.mem_cons_of_mem p hq)]
        simp [List.filter_cons, hblank, List.append_assoc]

/-- C2 (amended): in a run where every non-blank clip synthesizes, the
intermediate clips and the concatenation manifest are deleted before the
function returns only when the concatenation step succeeds (exit status
zero); when it reports a non-zero exit status, `check=True` raises
`CalledProcessError` before any unlink runs, and the error propagates
with every generated clip and the manifest still on disk. -/
theorem generate_audio_cleanup_on_success_only
    (segments : List String) (tts : Nat → Bool) (concatExit : Int)
    (hts : ∀ p ∈ segments.enum, p.2.pyStrip ≠ "" → tts p.1 = true) :
    (concatExit = 0 →
      generate_audio segments tts concatExit = .ok ⟨[], false⟩) ∧
    (concatExit ≠ 0 →
      generate_audio segments tts concatExit =
        .error (.concatFailed concatExit,
          ⟨(segments.enum.filter fun p => !(p.2.pyStrip == "")).map fun p => p.1, true⟩)) := by
  have hclips := audioClipsGo_all_ok segments.enum [] hts
  constructor
  · intro h0
    simp [generate_audio, hclips, h0]
  · intro hne
    simp [generate_audio, hclips, hne]

/-- Closed instance of the amended C2 theorem: two segments (one blank)
with every clip synthesizing and a successful concat run. -/
theorem generate_audio_cleanup_on_success_only_witness :
    ((0 : Int) = 0 →
      generate_audio ["你好", " "] (fun _ => true) 0 = .ok ⟨[], false⟩) ∧
    ((0 : Int) ≠ 0 →
      generate_audio ["你好", " "] (fun _ => true) 0 =
        .error (.concatFailed 0,
          ⟨((["你好", " "] : List String).enum.filter fun p => !(p.2.pyStrip == "")).map fun p => p.1,
            true⟩)) :=
  generate_audio_cleanup_on_success_only ["你好", " "] (fun _ => true) 0 (by decide)

/-! ## C10: _collect_videos filter, sort and missing-folder behavior -/

/-- C10: a missing folder yields the empty list; otherwise the collector
returns a permutation of exactly the entries that are regular files with
a whitelisted lowercased extension and a stem not ending in the
processed marker, sorted ascending by file name; membership is
characterized entry-wise. -/
theorem collect_videos_spec :
    _collect_videos none = [] ∧
    ∀ entries : List DirEntry,
      (_collect_videos (some entries)).Perm (entries.filter isCollectible) ∧
      List.Sorted (fun a b : DirEntry => a.name ≤ b.name) (_collect_videos (some entries)) ∧
      (∀ e : DirEntry, e ∈ _collect_videos (some entries) ↔
        e ∈ entries ∧ e.isFile = true ∧
          VIDEO_EXTENSIONS.contains (path_suffix e.name).pyLower = true ∧
          (path_stem e.name).endsWith "_bilingual" = false) := by
  refine ⟨rfl, fun entries => ⟨?_, ?_, ?_⟩⟩
  · exact List.mergeSort_perm (entries.filter isCollectible) _
  · have hp := @List.sorted_mergeSort DirEntry
      (fun a b : DirEntry => decide (a.name ≤ b.name))
      (fun a b c hab hbc => by
        simp only [decide_eq_true_eq] at *
        exact le_trans hab hbc)
      (fun a b => by
        simp only [Bool.or_eq_true, decide_eq_true_eq]
        exact le_total a.name b.name)
      (entries.filter isCollectible)
    exact hp.imp fun h => of_decide_eq_true h
  · intro e
    have hmem : e ∈ _collect_videos (some entries) ↔ e ∈ entries.filter isCollectible :=
      (List.mergeSort_perm (entries.filter isCollectible) _).mem_iff
    rw [hmem, List.mem_filter]
    simp [isCollectible, Bool.and_eq_true, and_assoc]

/-- Closed instance of the C10 theorem: the collector output for a
five-entry folder listing is a permutation of its filtered entries. -/
theorem collect_videos_spec_witness :
    (_collect_videos (some
        [⟨"b.mp4", true⟩, ⟨"a.MP4", true⟩, ⟨"x_bilingual.mp4", true⟩,
          ⟨"c.txt", true⟩, ⟨"d.mp4", false⟩])).Perm
      (([⟨"b.mp4", true⟩, ⟨"a.MP4", true⟩, ⟨"x_bilingual.mp4", true⟩,
          ⟨"c.txt", true⟩, ⟨"d.mp4", false⟩] : List DirEntry).filter isCollectible) :=
  (collect_videos_spec.2
    [⟨"b.mp4", true⟩, ⟨"a.MP4", true⟩, ⟨"x_bilingual.mp4", true⟩,
      ⟨"c.txt", true⟩, ⟨"d.mp4", false⟩]).1

/-! ## C4: validation failures of translate_one_video -/

theorem ensure_dirs_foldl_id (l : List String) :
    ∀ ds : List String, (∀ d ∈ l, ds.contains d = true) →
      l.foldl (fun ds d => if ds.contains d then ds else ds ++ [d]) ds = ds := by
  induction l with
  | nil => intro ds _; rfl
  | cons d l ih =>
      intro ds hall
      have hd : ds.contains d = true := hall d (List.mem_cons_self d l)
      simp only [List.foldl_cons, hd, if_true]
      exact ih ds fun x hx => hall x (List.mem_cons_of_mem d hx)

/-- C4 (counterexample): the claim that an unsupported-extension input
produces a validation failure with the filesystem unmodified beyond the
existence check fails: `translate_one_video` calls `ensure_directories`
before validating, so when the output workspace directories are missing
they are created even though the call only returns a validation error.
Here the input folder holds `notes.txt` but `video_output` and
`srt_output` do not exist yet. -/
theorem translate_one_video_side_effect_counterexample :
    (translate_one_video ⟨["video_input"], ["video_input/notes.txt"]⟩ "notes.txt"
        (.error (.calledProcess 1 ""))).ws ≠
      (⟨["video_input"], ["video_input/notes.txt"]⟩ : WS) ∧
    (translate_one_video ⟨["video_input"], ["video_input/notes.txt"]⟩ "notes.txt"
        (.error (.calledProcess 1 ""))).result.success = false ∧
    (translate_one_video ⟨["video_input"], ["video_input/notes.txt"]⟩ "notes.txt"
        (.error (.calledProcess 1 ""))).pipelineInvoked = false := by
  refine ⟨by decide, by decide, by decide⟩

/-- C4 (amended): on a missing file or an unsupported extension,
`translate_one_video` returns the corresponding validation failure (the
unsupported-type message listing the supported extensions) without
invoking the pipeline, and the only filesystem effect is the
`ensure_directories` bootstrap that runs before validation — which is a
no-op exactly when the three workspace directories already exist. -/
theorem translate_one_video_validation (ws : WS) (filename : String)
    (outcome : Except ProcErr ProcResult) :
    (("video_input/" ++ filename) ∉ (ensure_directories ws).files →
      ("video_input/" ++ filename) ∉ (ensure_directories ws).dirs →
      (translate_one_video ws filename outcome).result =
        ⟨false, none, none, none,
          some ("File not found: " ++ filename ++
            ". Please ensure the file exists in video_input folder.")⟩ ∧
      (translate_one_video ws filename outcome).pipelineInvoked = false) ∧
    ((("video_input/" ++ filename) ∈ (ensure_directories ws).files ∨
        ("video_input/" ++ filename) ∈ (ensure_directories ws).dirs) →
      (path_suffix (baseName filename)).pyLower ∉ VIDEO_EXTENSIONS →
      (translate_one_video ws filename outcome).result =
        ⟨false, none, none, none,
          some ("Unsupported file type: " ++ path_suffix (baseName filename) ++
            ". Supported: " ++ String.intercalate ", " VIDEO_EXTENSIONS)⟩ ∧
      (translate_one_video ws filename outcome).pipelineInvoked = false) ∧
    (translate_one_video ws filename outcome).ws = ensure_directories ws ∧
    ((∀ d ∈ workspaceDirs, ws.dirs.contains d = true) → ensure_directories ws = ws) := by
  refine ⟨?_, ?_, ?_, ?_⟩
  · intro hm1 hm2
    constructor <;> simp [translate_one_video, hm1, hm2]
  · intro hex hext
    rcases hex with h | h <;>
      constructor <;> simp [translate_one_video, h, hext]
  · simp only [translate_one_video]
    split
    · rfl
    · split <;> rfl
  · intro hall
    have h := ensure_dirs_foldl_id workspaceDirs ws.dirs hall
    simp only [ensure_directories, h]

/-- Closed instance of the amended C4 theorem: a `.txt` file present in
the input folder with all three workspace directories already existing. -/
theorem translate_one_video_validation_witness :
    (translate_one_video
        ⟨["video_input", "video_output", "srt_output"], ["video_input/notes.txt"]⟩
        "notes.txt" (.error (.calledProcess 1 ""))).result =
      ⟨false, none, none, none,
        some ("Unsupported file type: " ++ path_suffix (baseName "notes.txt") ++
          ". Supported: " ++ String.intercalate ", " VIDEO_EXTENSIONS)⟩ ∧
    (translate_one_video
        ⟨["video_input", "video_output", "srt_output"], ["video_input/notes.txt"]⟩
        "notes.txt" (.error (.calledProcess 1 ""))).pipelineInvoked = false :=
  (translate_one_video_validation
      ⟨["video_input", "video_output", "srt_output"], ["video_input/notes.txt"]⟩
      "notes.txt" (.error (.calledProcess 1 ""))).2.1 (Or.inl (by decide)) (by decide)

/-! ## C8: translate_videos isolates per-video failures -/

/-- The `processed` entry a video contributes, if its pipeline
succeeded. -/
def processedEntryOf (v : VideoRun) : Option ProcessedEntry :=
  match v.outcome with
  | .ok r => some ⟨v.name, r.video_output, r.srt_output⟩
  | .error _ => none

/-- The `failed` entry a video contributes, if its pipeline raised. -/
def failedEntryOf (v : VideoRun) : Option FailedEntry :=
  match v.outcome with
  | .ok _ => none
  | .error e => some ⟨v.name, errMessage e⟩

theorem batchStep_ok (acc : List ProcessedEntry × List FailedEntry) (v : VideoRun)
    (r : ProcResult) (hv : v.outcome = .ok r) :
    batchStep acc v = (acc.1 ++ [⟨v.name, r.video_output, r.srt_output⟩], acc.2) := by
  simp [batchStep, _process_single_video, hv]

theorem batchStep_error (acc : List ProcessedEntry × List FailedEntry) (v : VideoRun)
    (e : ProcErr) (hv : v.outcome = .error e) :
    batchStep acc v = (acc.1, acc.2 ++ [⟨v.name, errMessage e⟩]) := by
  simp [batchStep, _process_single_video, hv]

theorem translate_videos_foldl :
    ∀ (l : List VideoRun) (p : List ProcessedEntry) (f : List FailedEntry),
      l.foldl batchStep (p, f)
      = (p ++ l.filterMap processedEntryOf, f ++ l.filterMap failedEntryOf) := by
  intro l
  induction l with
  | nil => intro p f; simp
  | cons v l ih =>
      intro p f
      cases hv : v.outcome with
      | ok r =>
          rw [List.foldl_cons, batchStep_ok (p, f) v r hv, ih]
          simp [List.filterMap_cons, processedEntryOf, failedEntryOf, hv]
      | error e =>
          rw [List.foldl_cons, batchStep_error (p, f) v e hv, ih]
          simp [List.filterMap_cons, processedEntryOf, failedEntryOf, hv]

/-- C8: every collected video contributes exactly one entry — to
`processed` when its pipeline succeeded, to `failed` (with its filename
and the error message) when it raised — in collection order; a failure
never suppresses the entries of subsequent videos, and the lengths add
up to the batch size.  The batch function is total over arbitrary
per-video outcomes: every pipeline exception is absorbed into the
`failed` list, none escapes. -/
theorem translate_videos_isolates_failures (videos : List VideoRun) :
    (translate_videos videos).processed = videos.filterMap processedEntryOf ∧
    (translate_videos videos).failed = videos.filterMap failedEntryOf ∧
    (translate_videos videos).processed.length + (translate_videos videos).failed.length
      = videos.length := by
  have hchar : (translate_videos videos).processed = videos.filterMap processedEntryOf ∧
      (translate_videos videos).failed = videos.filterMap failedEntryOf := by
    cases videos with
    | nil => exact ⟨rfl, rfl⟩
    | cons v vs =>
        have h := translate_videos_foldl (v :: vs) [] []
        constructor <;>
          simp [translate_videos, h]
  have hlen : ∀ l : List VideoRun,
      (l.filterMap processedEntryOf).length + (l.filterMap failedEntryOf).length
        = l.length := by
    intro l
    induction l with
    | nil => rfl
    | cons v l ih =>
        cases hv : v.outcome <;>
          simp [List.filterMap_cons, processedEntryOf, failedEntryOf, hv] <;>
          omega
  refine ⟨hchar.1, hchar.2, ?_⟩
  rw [hchar.1, hchar.2]
  exact hlen videos

/-- Closed instance of the C8 theorem: a batch of one succeeding and one
failing video. -/
theorem translate_videos_isolates_failures_witness :
    (translate_videos
        [⟨"good.mp4", .ok ⟨"v_out", "s_out", none, ""⟩⟩,
          ⟨"bad.mp4", .error (.calledProcess 1 "boom")⟩]).processed =
      ([⟨"good.mp4", .ok ⟨"v_out", "s_out", none, ""⟩⟩,
          ⟨"bad.mp4", .error (.calledProcess 1 "boom")⟩] : List VideoRun).filterMap
        processedEntryOf ∧
    (translate_videos
        [⟨"good.mp4", .ok ⟨"v_out", "s_out", none, ""⟩⟩,
          ⟨"bad.mp4", .error (.calledProcess 1 "boom")⟩]).failed =
      ([⟨"good.mp4", .ok ⟨"v_out", "s_out", none, ""⟩⟩,
          ⟨"bad.mp4", .error (.calledProcess 1 "boom")⟩] : List VideoRun).filterMap
        failedEntryOf ∧
    (translate_videos
        [⟨"good.mp4", .ok ⟨"v_out", "s_out", none, ""⟩⟩,
          ⟨"bad.mp4", .error (.calledProcess 1 "boom")⟩]).processed.length +
      (translate_videos
        [⟨"good.mp4", .ok ⟨"v_out", "s_out", none, ""⟩⟩,
          ⟨"bad.mp4", .error (.calledProcess 1 "boom")⟩]).failed.length = 2 :=
  translate_videos_isolates_failures
    [⟨"good.mp4", .ok ⟨"v_out", "s_out", none, ""⟩⟩,
      ⟨"bad.mp4", .error (.calledProcess 1 "boom")⟩]

/-! ## C9: deterministic output paths -/

theorem process_ok_paths (video_path vdir sdir mode : String) (bilingual : Bool)
    (w : PipelineWorld) (r : ProcResult)
    (h : process_video_to_dirs video_path vdir sdir mode bilingual w = .ok r) :
    r.video_output = vdir ++ "/" ++ path_stem (baseName video_path) ++ "_bilingual.mp4" ∧
    r.srt_output = sdir ++ "/" ++ path_stem (baseName video_path) ++ "_bilingual.srt" ∧
    (mode = "dub" → r.dub_audio =
      some (vdir ++ "/" ++ path_stem (baseName video_path) ++ "_dub.mp3")) ∧
    (mode ≠ "dub" → r.dub_audio = none) := by
  by_cases hm1 : mode = "subs"
  · subst hm1
    simp only [process_video_to_dirs, if_true] at h
    split_ifs at h <;>
      first
        | (rw [Except.ok.injEq] at h
           subst h
           exact ⟨rfl, rfl, fun hc => absurd hc (by decide), fun _ => rfl⟩)
        | simp at h
  · by_cases hm2 : mode = "dub"
    · subst hm2
      simp only [process_video_to_dirs, if_true] at h
      rw [if_neg hm1] at h
      split at h
      · simp at h
      · simp at h
      · split_ifs at h <;>
          first
            | (rw [Except.ok.injEq] at h
               subst h
               exact ⟨rfl, rfl, fun _ => rfl, fun hc => absurd rfl hc⟩)
            | simp at h
    · simp only [process_video_to_dirs] at h
      rw [if_neg hm1, if_neg hm2] at h
      rw [Except.ok.injEq] at h
      subst h
      exact ⟨rfl, rfl, fun hc => absurd hc hm2, fun _ => rfl⟩

/-- C9: across any two runs of the pipeline on the same input path,
output directories and mode — whatever the transcription, translation,
synthesis and muxing outcomes — a successful result carries the same
output paths, which are the output directories joined with the input
stem and the fixed suffixes `_bilingual.mp4`, `_bilingual.srt` and, in
dub mode only, `_dub.mp3`; outside dub mode no dub path is returned.
The paths depend on nothing else, so reprocessing targets (and
overwrites, via ffmpeg `-y` and mode-"w" file writes) the same files. -/
theorem process_video_paths_deterministic
    (video_path vdir sdir mode : String) (bilingual : Bool)
    (w1 w2 : PipelineWorld) (r1 r2 : ProcResult)
    (h1 : process_video_to_dirs video_path vdir sdir mode bilingual w1 = .ok r1)
    (h2 : process_video_to_dirs video_path vdir sdir mode bilingual w2 = .ok r2) :
    (r1.video_output = r2.video_output ∧ r1.srt_output = r2.srt_output ∧
      r1.dub_audio = r2.dub_audio) ∧
    r1.video_output = vdir ++ "/" ++ path_stem (baseName video_path) ++ "_bilingual.mp4" ∧
    r1.srt_output = sdir ++ "/" ++ path_stem (baseName video_path) ++ "_bilingual.srt" ∧
    (mode = "dub" → r1.dub_audio =
      some (vdir ++ "/" ++ path_stem (baseName video_path) ++ "_dub.mp3")) ∧
    (mode ≠ "dub" → r1.dub_audio = none) := by
  obtain ⟨hv1, hs1, hd1, hn1⟩ := process_ok_paths video_path vdir sdir mode bilingual w1 r1 h1
  obtain ⟨hv2, hs2, hd2, hn2⟩ := process_ok_paths video_path vdir sdir mode bilingual w2 r2 h2
  refine ⟨⟨hv1.trans hv2.symm, hs1.trans hs2.symm, ?_⟩, hv1, hs1, hd1, hn1⟩
  by_cases hm : mode = "dub"
  · rw [hd1 hm, hd2 hm]
  · rw [hn1 hm, hn2 hm]

/-- Closed instance of the C9 theorem: two subs-mode runs on
`videos/lecture.mp4` whose worlds differ in their translation pipelines
and reported ffmpeg diagnostics. -/
theorem process_video_paths_deterministic_witness :
    (("video_output/lecture_bilingual.mp4" : String) =
        "video_output/lecture_bilingual.mp4" ∧
      ("srt_output/lecture_bilingual.srt" : String) =
        "srt_output/lecture_bilingual.srt" ∧
      (none : Option String) = none) ∧
    ("video_output/lecture_bilingual.mp4" : String) =
      "video_output" ++ "/" ++ path_stem (baseName "videos/lecture.mp4") ++ "_bilingual.mp4" ∧
    ("srt_output/lecture_bilingual.srt" : String) =
      "srt_output" ++ "/" ++ path_stem (baseName "videos/lecture.mp4") ++ "_bilingual.srt" ∧
    (("subs" : String) = "dub" →
      (none : Option String) =
        some ("video_output" ++ "/" ++ path_stem (baseName "videos/lecture.mp4") ++ "_dub.mp3")) ∧
    (("subs" : String) ≠ "dub" → (none : Option String) = none) := by
  have h := process_video_paths_deterministic "videos/lecture.mp4" "video_output" "srt_output"
    "subs" true
    ⟨[], id, fun _ => true, 0, 0, ""⟩
    ⟨[], fun l => l.map (fun t => t ++ "!"), fun _ => false, 0, 0, "diag"⟩
    ⟨"video_output/lecture_bilingual.mp4", "srt_output/lecture_bilingual.srt", none, ""⟩
    ⟨"video_output/lecture_bilingual.mp4", "srt_output/lecture_bilingual.srt", none, ""⟩
    rfl rfl
  exact h

/-- Closed instance of the amended C3 theorem: a pipeline answering the
empty list for every batch. -/
theorem translate_no_response_validation_witness :
    translate_to_chinese (fun _ => []) ["hello"] 8
      = ((batches 8 ["hello"]).map fun b =>
          (((fun _ => ([] : List String)) (b.map sanitize)).map String.pyStrip)).flatten ∧
    (translate_to_chinese (fun _ => []) ["hello"] 8).length
      = ((batches 8 ["hello"]).map fun b =>
          ((fun _ => ([] : List String)) (b.map sanitize)).length).sum :=
  translate_no_response_validation (fun _ => []) 8 ["hello"]

/-- Closed instance of the C7 theorem on a two-segment list whose start
values are not sorted. -/
theorem generate_srt_blocks_witness :
    generate_srt [⟨5, 6, " b "⟩, ⟨0, 1, " a "⟩]
      = String.join (([⟨5, 6, " b "⟩, ⟨0, 1, " a "⟩] : List Segment).mapIdx
          fun i s => srtBlock (i + 1) s) ∧
    (([⟨5, 6, " b "⟩, ⟨0, 1, " a "⟩] : List Segment).mapIdx
        fun i s => srtBlock (i + 1) s).length
      = ([⟨5, 6, " b "⟩, ⟨0, 1, " a "⟩] : List Segment).length ∧
    generate_srt [] = "" :=
  generate_srt_blocks [⟨5, 6, " b "⟩, ⟨0, 1, " a "⟩]
